import Mathlib

/-!
Verification of the allergy-recipe-finder repository.

A shallow embedding of the Python sources:
  * `src/ingredients.py` : `get_functional_tags`, `clean_ingredient_name`,
    `find_best_meal` (the meal-combination engine);
  * `src/app.py` : `ALLERGY_KEYWORD_MAP`, `check_recipe_allergens`,
    `check_recipe_dietary`.

Python strings are embedded as `List Char`, Python floats as `ℚ`
(the numeric literals of the examples are exactly representable),
Python sets of tags as `Finset`, a raised exception as `none` / `.error`.
`str.replace` (replace every non-overlapping occurrence, left to right),
`str.strip`, `str.split`, and the substring test `in` are embedded
faithfully below.
-/

/-- Embedded Python string. -/
abbrev Str := List Char

/-- Convenience: build an embedded string from a Lean string literal. -/
def chars (s : String) : Str := s.toList

/-- Python `s.lower()` (ASCII inputs only, as in this repository). -/
def toLowerStr (s : Str) : Str := s.map Char.toLower

/-- Python `pat in s`: contiguous-substring test. -/
def isSubstr : Str → Str → Bool
  | pat, [] => pat.isEmpty
  | pat, c :: rest => pat.isPrefixOf (c :: rest) || isSubstr pat rest

/-- Python `s.strip()`: drop leading and trailing whitespace. -/
def pyStrip (s : Str) : Str :=
  ((s.dropWhile Char.isWhitespace).reverse.dropWhile Char.isWhitespace).reverse

/-- Fueled worker for `replaceAll`. -/
def replaceAllAux (pat rep : Str) : Nat → Str → Str
  | _, [] => []
  | 0, s => s
  | fuel + 1, c :: rest =>
    if pat.isPrefixOf (c :: rest) then
      rep ++ replaceAllAux pat rep fuel ((c :: rest).drop pat.length)
    else
      c :: replaceAllAux pat rep fuel rest

/-- Python `s.replace(pat, rep)`: replace every non-overlapping occurrence,
scanning left to right (the replacement text is not rescanned). -/
def replaceAll (pat rep s : Str) : Str := replaceAllAux pat rep s.length s

/-- Python `s.split(sep)` for a one-character separator. -/
def pySplit (sep : Char) : Str → List Str
  | [] => [[]]
  | c :: rest =>
    let r := pySplit sep rest
    if c = sep then [] :: r
    else (c :: r.headD []) :: r.tail

/-- The five functional-tag strings of `get_functional_tags`
("Protein", "Starch", "Fat/Dairy", "Produce", "Other"). -/
inductive FTag where
  | Protein
  | Starch
  | FatDairy
  | Produce
  | Other
deriving DecidableEq

/-- Keyword list for the "Protein" functional tag (ingredients.py line 54). -/
def proteinWords : List Str :=
  ["chicken", "turkey", "fish", "pork", "beef", "lamb", "egg", "tofu",
   "seitan"].map String.toList

/-- Keyword list for the "Starch" functional tag (ingredients.py line 57). -/
def starchWords : List Str :=
  ["rice", "flour", "pasta", "noodle", "bread", "oats", "potato", "quinoa",
   "starch"].map String.toList

/-- Keyword list for the "Fat/Dairy" functional tag (ingredients.py line 60). -/
def fatDairyWords : List Str :=
  ["oil", "butter", "cream", "cheese", "fat", "margarine"].map String.toList

/-- Keyword list for the "Produce" functional tag (ingredients.py line 63). -/
def produceWords : List Str :=
  ["tomato", "onion", "garlic", "carrot", "pepper", "broccoli", "spinach",
   "fruit"].map String.toList

/-- Embedding of `get_functional_tags` of ingredients.py: assigns the high-level
functional tags used by the diversity check. -/
def get_functional_tags (ingredient_name : Str) : Finset FTag :=
  let name_lower := toLowerStr ingredient_name
  let tags : Finset FTag := ∅
  let tags := if proteinWords.any (fun w => isSubstr w name_lower) then
    insert FTag.Protein tags else tags
  let tags := if starchWords.any (fun w => isSubstr w name_lower) then
    insert FTag.Starch tags else tags
  let tags := if fatDairyWords.any (fun w => isSubstr w name_lower) then
    insert FTag.FatDairy tags else tags
  let tags := if produceWords.any (fun w => isSubstr w name_lower) then
    insert FTag.Produce tags else tags
  if tags = ∅ then {FTag.Other} else tags

/-- The noise-term list of `clean_ingredient_name` (ingredients.py line 73),
in source order. -/
def noiseTerms : List Str :=
  ["raw", "unprepared", "prepared", "unenriched", "cooked", "generic",
   "canned", "usda", "frozen"].map String.toList

/-- The replacement loop of `clean_ingredient_name`: for each noise term, in
order, replace every occurrence of `", term"`, then of `" term"`, then of
`",term"`, by the empty string. -/
def stripNoise (s : Str) : Str :=
  noiseTerms.foldl
    (fun acc term =>
      replaceAll (',' :: term) []
        (replaceAll (' ' :: term) []
          (replaceAll (',' :: ' ' :: term) [] acc)))
    s

/-- Embedding of `clean_ingredient_name` of ingredients.py.  `none` models the
`IndexError` raised by `cleaned_name[0]` when the string is empty after
noise-term removal. -/
def clean_ingredient_name (name : Str) : Option Str :=
  match stripNoise (pyStrip name) with
  | [] => none
  | c :: rest =>
    let capped := Char.toUpper c :: pyStrip rest
    some (pyStrip ((pySplit ',' capped).headD []))

/-- An ingredient record (a Python dict in the source).  `functional_tags`
is `none` until `find_best_meal`'s safety filter writes it. -/
structure Ingredient where
  name : Str
  cost_per_100g : ℚ
  protein_g : ℚ
  carbs_g : ℚ
  fat_g : ℚ
  allergy_tags : List Str
  functional_tags : Option (Finset FTag) := none
deriving DecidableEq

/-- The safety-filter test of `find_best_meal` (ingredients.py line 98):
no allergy tag of the ingredient occurs among the excluded tags. -/
def isSafe (excluded_tags : List Str) (ingredient : Ingredient) : Bool :=
  !(ingredient.allergy_tags.any (fun tag => excluded_tags.contains tag))

/-- The in-place update `ingredient['functional_tags'] = get_functional_tags(...)`
performed by the safety filter. -/
def tagIngredient (i : Ingredient) : Ingredient :=
  { i with functional_tags := some (get_functional_tags i.name) }

/-- The safety-filter loop of `find_best_meal` (ingredients.py lines 96-101).
Returns the post-state of the caller's `data` list (the loop mutates the
dicts it keeps) together with `safe_ingredients`, in original order. -/
def processData (excluded_tags : List Str) : List Ingredient → List Ingredient × List Ingredient
  | [] => ([], [])
  | i :: rest =>
    let p := processData excluded_tags rest
    if isSafe excluded_tags i then (tagIngredient i :: p.1, tagIngredient i :: p.2)
    else (i :: p.1, p.2)

/-- Read of `item['functional_tags']`; inside the engine every combo member
has been tagged, so the default is never hit there. -/
def ftags (i : Ingredient) : Finset FTag := i.functional_tags.getD ∅

/-- The duplication walk of `find_best_meal` (ingredients.py lines 111-126):
walks the combo, tracking the macro set and the union of functional tags;
`none` models the `is_duplicate` break, `some acc` the surviving union. -/
def comboScan : List Ingredient → Finset FTag → Finset FTag → Option (Finset FTag)
  | [], _, acc => some acc
  | i :: rest, macros, acc =>
    if FTag.Starch ∈ ftags i then
      if FTag.Starch ∈ macros then none
      else comboScan rest (insert FTag.Starch macros) (acc ∪ ftags i)
    else if FTag.Protein ∈ ftags i then
      if FTag.Protein ∈ macros then none
      else comboScan rest (insert FTag.Protein macros) (acc ∪ ftags i)
    else comboScan rest macros (acc ∪ ftags i)

/-- Embedding of `itertools.combinations`: all size-`k` subsequences, in the enumeration
order of itertools (lexicographic by position). -/
def combinations {α : Type} : Nat → List α → List (List α)
  | 0, _ => [[]]
  | _ + 1, [] => []
  | k + 1, x :: xs =>
    (combinations k xs).map (fun c => x :: c) ++ combinations (k + 1) xs
termination_by structural k l => l

/-- Sum of `cost_per_100g` over a combo (ingredients.py line 134). -/
def totalCost (combo : List Ingredient) : ℚ :=
  (combo.map Ingredient.cost_per_100g).sum

/-- Sum of `protein_g` over a combo (ingredients.py line 135). -/
def totalProtein (combo : List Ingredient) : ℚ :=
  (combo.map Ingredient.protein_g).sum

/-- Sum of `fat_g` over a combo (ingredients.py line 136). -/
def totalFat (combo : List Ingredient) : ℚ :=
  (combo.map Ingredient.fat_g).sum

/-- All checks a combo must pass to be appended to `valid_meals`: the
duplication walk, the diversity floor, and the three numeric constraints
(ingredients.py lines 110-141). -/
def comboOK (max_cost min_protein max_fat : ℚ) (combo : List Ingredient) : Bool :=
  match comboScan combo ∅ ∅ with
  | none => false
  | some fts =>
    decide (2 ≤ fts.card) &&
    decide (totalCost combo ≤ max_cost) &&
    decide (min_protein ≤ totalProtein combo) &&
    decide (totalFat combo ≤ max_fat)

/-- Round-half-to-even to an integer, the rounding of Python `round`. -/
def roundHalfEven (q : ℚ) : ℤ :=
  let f := ⌊q⌋
  if q - f < 1 / 2 then f
  else if (1 : ℚ) / 2 < q - f then f + 1
  else if Even f then f else f + 1

/-- Python `round(q, d)` on the exact rational value. -/
def pyRound (d : ℕ) (q : ℚ) : ℚ := (roundHalfEven (q * 10 ^ d) : ℚ) / 10 ^ d

/-- A record appended to `valid_meals` (ingredients.py lines 143-150). -/
structure MealRecord where
  ingredients : List Str
  total_cost : ℚ
  total_protein_g : ℚ
  total_fat_g : ℚ
  num_ingredients : ℕ
  diversity_score : ℕ
deriving DecidableEq

/-- Builds the record appended for a surviving combo; `none` models the
exception propagated out of `clean_ingredient_name`. -/
def mkRecord (combo : List Ingredient) : Option MealRecord := do
  let names ← combo.mapM (fun i => clean_ingredient_name i.name)
  pure
    { ingredients := names
      total_cost := pyRound 2 (totalCost combo)
      total_protein_g := pyRound 1 (totalProtein combo)
      total_fat_g := pyRound 1 (totalFat combo)
      num_ingredients := combo.length
      diversity_score := ((comboScan combo ∅ ∅).getD ∅).card }

/-- The full enumeration of `find_best_meal` (ingredients.py lines 107-108):
sizes 2 up to `max_ingredients`, itertools order within each size. -/
def allCombos (safe : List Ingredient) (max_ingredients : ℕ) : List (List Ingredient) :=
  ((List.range' 2 (max_ingredients - 1)).map (fun k => combinations k safe)).flatten

/-- The combos of the enumeration that pass every check, in enumeration
order; `valid_meals` is their image under `mkRecord`. -/
def survivingCombos (data : List Ingredient) (max_cost min_protein max_fat : ℚ)
    (excluded_tags : List Str) (max_ingredients : ℕ) : List (List Ingredient) :=
  (allCombos (processData excluded_tags data).2 max_ingredients).filter
    (comboOK max_cost min_protein max_fat)

/-- The ascending order on `valid_meals` records determined by the Python
sort key `(-diversity_score, -total_protein_g, total_cost)`. -/
def mealKeyLE (a b : MealRecord) : Prop :=
  b.diversity_score < a.diversity_score ∨
    (a.diversity_score = b.diversity_score ∧
      (b.total_protein_g < a.total_protein_g ∨
        (a.total_protein_g = b.total_protein_g ∧ a.total_cost ≤ b.total_cost)))

instance : DecidableRel mealKeyLE := fun a b => by
  unfold mealKeyLE; infer_instance

instance : IsTotal MealRecord mealKeyLE where
  total a b := by
    unfold mealKeyLE
    rcases lt_trichotomy a.diversity_score b.diversity_score with h | h | h
    · exact Or.inr (Or.inl h)
    · rcases lt_trichotomy a.total_protein_g b.total_protein_g with h2 | h2 | h2
      · exact Or.inr (Or.inr ⟨h.symm, Or.inl h2⟩)
      · rcases le_total a.total_cost b.total_cost with h3 | h3
        · exact Or.inl (Or.inr ⟨h, Or.inr ⟨h2, h3⟩⟩)
        · exact Or.inr (Or.inr ⟨h.symm, Or.inr ⟨h2.symm, h3⟩⟩)
      · exact Or.inl (Or.inr ⟨h, Or.inl h2⟩)
    · exact Or.inl (Or.inl h)

instance : IsTrans MealRecord mealKeyLE where
  trans a b c hab hbc := by
    unfold mealKeyLE at *
    rcases hab with h1 | ⟨e1, h1⟩
    · rcases hbc with h2 | ⟨e2, h2⟩
      · exact Or.inl (h2.trans h1)
      · exact Or.inl (e2 ▸ h1)
    · rcases hbc with h2 | ⟨e2, h2⟩
      · exact Or.inl (e1 ▸ h2)
      · refine Or.inr ⟨e1.trans e2, ?_⟩
        rcases h1 with h1 | ⟨f1, h1⟩
        · rcases h2 with h2 | ⟨f2, h2⟩
          · exact Or.inl (h2.trans h1)
          · exact Or.inl (f2 ▸ h1)
        · rcases h2 with h2 | ⟨f2, h2⟩
          · exact Or.inl (f1 ▸ h2)
          · exact Or.inr ⟨f1.trans f2, h1.trans h2⟩

/-- The `valid_meals` list built by the enumeration loop, in enumeration
order; `none` models the exception raised out of `clean_ingredient_name`
while a record was being appended. -/
def validMeals (data : List Ingredient) (max_cost min_protein max_fat : ℚ)
    (excluded_tags : List Str) (max_ingredients : ℕ) : Option (List MealRecord) :=
  (survivingCombos data max_cost min_protein max_fat excluded_tags
    max_ingredients).mapM mkRecord

/-- Embedding of `find_best_meal` of ingredients.py.  `Except.error ()` models a raised
exception; `Except.ok none` models the Python return value `None`;
`Except.ok (some l)` models a returned list. -/
def find_best_meal (data : List Ingredient) (max_cost min_protein max_fat : ℚ)
    (excluded_tags : List Str) (max_ingredients : ℕ := 4) :
    Except Unit (Option (List MealRecord)) :=
  match validMeals data max_cost min_protein max_fat excluded_tags max_ingredients with
  | none => .error ()
  | some valid_meals =>
    if valid_meals.isEmpty then .ok none
    else .ok (some ((valid_meals.insertionSort mealKeyLE).take 5))

/-- The state of the caller's `data` list after `find_best_meal` returns
(or raises): the safety-filter loop has written `functional_tags` into the
kept records, in place. -/
def dataAfterCall (excluded_tags : List Str) (data : List Ingredient) : List Ingredient :=
  (processData excluded_tags data).1

/-- The `ALLERGY_KEYWORD_MAP` table of app.py (lines 21-39), as an
association list (the Python dict has unique keys, and only lookup is
performed on it). -/
def ALLERGY_KEYWORD_MAP : List (Str × List Str) :=
  [(chars "legume",
    ["bean", "beans", "lentil", "lentils", "pea", "peas", "chickpea",
     "chickpeas", "garbanzo", "soy", "soybean", "edamame", "black bean",
     "kidney bean", "pinto bean", "navy bean", "lima bean",
     "mung bean"].map String.toList),
   (chars "legumes",
    ["bean", "beans", "lentil", "lentils", "pea", "peas", "chickpea",
     "chickpeas", "garbanzo", "soy", "soybean", "edamame", "black bean",
     "kidney bean", "pinto bean", "navy bean", "lima bean",
     "mung bean"].map String.toList),
   (chars "peanut", ["peanut", "peanuts", "groundnut"].map String.toList),
   (chars "peanuts", ["peanut", "peanuts", "groundnut"].map String.toList),
   (chars "treenut",
    ["almond", "almonds", "walnut", "walnuts", "cashew", "cashews", "pecan",
     "pecans", "hazelnut", "hazelnuts", "pistachio", "pistachios",
     "brazil nut", "macadamia"].map String.toList),
   (chars "treenuts",
    ["almond", "almonds", "walnut", "walnuts", "cashew", "cashews", "pecan",
     "pecans", "hazelnut", "hazelnuts", "pistachio", "pistachios",
     "brazil nut", "macadamia"].map String.toList),
   (chars "egg",
    ["egg", "eggs", "mayonnaise", "mayo", "egg white",
     "egg yolk"].map String.toList),
   (chars "eggs",
    ["egg", "eggs", "mayonnaise", "mayo", "egg white",
     "egg yolk"].map String.toList),
   (chars "dairy",
    ["milk", "cheese", "butter", "yogurt", "cream", "whey",
     "casein"].map String.toList),
   (chars "wheat",
    ["wheat", "flour", "bread", "pasta", "noodle", "noodles",
     "cereal"].map String.toList),
   (chars "gluten",
    ["wheat", "flour", "bread", "pasta", "noodle", "noodles", "cereal",
     "barley", "rye", "oats"].map String.toList)]

/-- Dict lookup `ALLERGY_KEYWORD_MAP.get(tag, default)` (without the
default, which the caller supplies through `Option.getD`). -/
def lookupKeywords (tag : Str) : Option (List Str) :=
  (ALLERGY_KEYWORD_MAP.find? (fun p => p.1 == tag)).map Prod.snd

/-- Embedding of `check_recipe_allergens` of app.py (lines 139-151).  The Python
`keywords_to_check` is a set; only `any`-style membership of a match is
consumed, so a duplicate-preserving list is an equivalent model. -/
def check_recipe_allergens (recipe_ingredients : List Str)
    (excluded_tags : List Str) : Bool :=
  if excluded_tags.isEmpty then true
  else
    let keywords_to_check :=
      (excluded_tags.map
        (fun tag => (lookupKeywords (toLowerStr tag)).getD [toLowerStr tag])).flatten
    !(recipe_ingredients.any (fun line =>
      keywords_to_check.any (fun kw => isSubstr kw (toLowerStr line))))

/-- The `meat_poultry_tags` list of `check_recipe_dietary` (app.py line 155). -/
def meat_poultry_tags : List Str :=
  ["meat", "poultry", "beef", "pork", "sausage", "chicken", "turkey", "lamb",
   "duck", "goose", "venison", "bison"].map String.toList

/-- The `fish_shellfish_tags` list of `check_recipe_dietary` (app.py line 156). -/
def fish_shellfish_tags : List Str :=
  ["fish", "shellfish", "salmon", "tuna", "cod", "haddock", "mackerel",
   "sardine", "anchovy", "trout", "bass", "snapper", "halibut", "tilapia",
   "sea bass", "shrimp", "prawn", "crab", "lobster", "scallop", "mussel",
   "oyster", "clam", "squid", "octopus", "crayfish",
   "caviar"].map String.toList

/-- Embedding of `check_recipe_dietary` of app.py (lines 153-167). -/
def check_recipe_dietary (recipe_title : Str) (recipe_ingredients : List Str)
    (preference : Str) : Bool :=
  if preference = chars "none" then true
  else
    let all_ingredients_lower :=
      toLowerStr (List.intercalate (chars " ") recipe_ingredients)
    let title_lower := toLowerStr recipe_title
    if preference = chars "vegetarian" then
      !((meat_poultry_tags ++ fish_shellfish_tags).any (fun tag =>
        isSubstr tag all_ingredients_lower || isSubstr tag title_lower))
    else if preference = chars "pescetarian" then
      !(meat_poultry_tags.any (fun tag =>
        isSubstr tag all_ingredients_lower || isSubstr tag title_lower))
    else true

/-! Concrete ingredient records used in the theorems below. -/

/-- Convenience constructor for a catalog entry (`carbs_g` is irrelevant to
every claim and set to 0 where unspecified). -/
def mkIng (n : String) (c p f : ℚ) (tags : List String) : Ingredient :=
  { name := chars n, cost_per_100g := c, protein_g := p, carbs_g := 0,
    fat_g := f, allergy_tags := tags.map chars }

/-- The four-ingredient example catalog of the specification. -/
def c3Catalog : List Ingredient :=
  [mkIng "Rice" (10/100) (71/10) (7/10) [],
   mkIng "Egg" (25/100) (126/10) (95/10) ["egg"],
   mkIng "Chicken" (75/100) 31 (36/10) ["poultry", "meat"],
   mkIng "Tomato" (8/100) (9/10) (2/10) []]

/-- The first-ranked record on the example catalog: {Rice, Chicken, Tomato}. -/
def c3Top : MealRecord :=
  { ingredients := [chars "Rice", chars "Chicken", chars "Tomato"],
    total_cost := 93/100, total_protein_g := 39, total_fat_g := 9/2,
    num_ingredients := 3, diversity_score := 3 }

/-- The five records `find_best_meal` returns on `c3Catalog` with
max_cost=1, min_protein=15, max_fat=15, no exclusions, max_ingredients=3. -/
def c3Expected : List MealRecord :=
  [c3Top,
   { ingredients := [chars "Rice", chars "Egg", chars "Tomato"],
     total_cost := 43/100, total_protein_g := 103/5, total_fat_g := 52/5,
     num_ingredients := 3, diversity_score := 3 },
   { ingredients := [chars "Rice", chars "Chicken"],
     total_cost := 17/20, total_protein_g := 381/10, total_fat_g := 43/10,
     num_ingredients := 2, diversity_score := 2 },
   { ingredients := [chars "Chicken", chars "Tomato"],
     total_cost := 83/100, total_protein_g := 319/10, total_fat_g := 19/5,
     num_ingredients := 2, diversity_score := 2 },
   { ingredients := [chars "Rice", chars "Egg"],
     total_cost := 7/20, total_protein_g := 197/10, total_fat_g := 51/5,
     num_ingredients := 2, diversity_score := 2 }]

/-- The first-ranked record of `find_best_meal` on the example catalog. -/
def c3FirstResult : Option MealRecord :=
  match find_best_meal c3Catalog 1 15 15 [] 3 with
  | .ok (some l) => l.head?
  | _ => none

/-- A catalog whose only surviving combination has two Protein-tagged
members: "chicken rice" carries both Protein and Starch, "egg" carries
Protein, and the `elif` of the duplication walk registers the first member
only under Starch. -/
def c1Catalog : List Ingredient :=
  [mkIng "chicken rice" 1 1 1 [], mkIng "egg" 1 1 1 []]

/-- A two-ingredient catalog whose single surviving combination has exact
cost 0.998, which `round(_, 2)` reports as 1.00. -/
def c2Catalog : List Ingredient :=
  [mkIng "rice" (499/1000) 1 0 [], mkIng "egg" (499/1000) 1 0 []]

/-- A catalog containing the ingredient name ", raw", which becomes empty
after noise-term removal, so `clean_ingredient_name` raises. -/
def c9Catalog : List Ingredient :=
  [mkIng "rice" 1 1 1 [], mkIng ", raw" 1 1 1 []]

deriving instance DecidableEq for Except

/-- Removal of a trailing occurrence of `pat` (and nothing else). -/
def dropSuffix (pat s : Str) : Str :=
  if pat.isSuffixOf s then s.take (s.length - pat.length) else s

/-- Modelled from the claim wording for comparison: strips each noise term
only when it appears as a comma-prefixed or space-prefixed suffix fragment
of the name, then capitalizes the first letter and truncates at the first
comma.  This is the behaviour the claim ascribes to `clean_ingredient_name`;
the code's `str.replace` strips occurrences anywhere instead. -/
def clean_name_claim (name : Str) : Option Str :=
  let stripped := noiseTerms.foldl
    (fun acc term =>
      dropSuffix (',' :: term)
        (dropSuffix (' ' :: term)
          (dropSuffix (',' :: ' ' :: term) acc)))
    (pyStrip name)
  match stripped with
  | [] => none
  | c :: rest =>
    some (pyStrip ((pySplit ',' (Char.toUpper c :: pyStrip rest)).headD []))

/-- C6 counterexample: on "egg raw mix" the noise term "raw" occurs
space-prefixed in the middle of the name, not as a suffix fragment; the
suffix-only behaviour the claim describes would leave it in place, but
`clean_ingredient_name` strips it. -/
theorem C6_counterexample :
    clean_ingredient_name (chars "egg raw mix") = some (chars "Egg mix") ∧
    clean_name_claim (chars "egg raw mix") = some (chars "Egg raw mix") ∧
    some (chars "Egg mix") ≠ some (chars "Egg raw mix") := by
  refine ⟨by decide, by decide, by decide⟩

/-- C9: `clean_ingredient_name` is not total: it raises (modelled `none`) on
the empty string and on ", raw", which becomes empty after noise removal;
consequently `find_best_meal` raises (modelled `Except.error ()`) on a
catalog whose surviving combination contains such a name. -/
theorem C9_partiality :
    clean_ingredient_name [] = none ∧
    clean_ingredient_name (chars ", raw") = none ∧
    find_best_meal c9Catalog 100 0 100 [] 2 = .error () := by
  refine ⟨by decide, by decide, of_decide_eq_true (by with_unfolding_all rfl)⟩

/-- The single record `find_best_meal` returns on `c1Catalog`. -/
def c1Rec : MealRecord :=
  { ingredients := [chars "Chicken rice", chars "Egg"], total_cost := 2,
    total_protein_g := 2, total_fat_g := 2, num_ingredients := 2,
    diversity_score := 2 }

/-- C1 counterexample: the combination ("chicken rice", "egg") survives every
check and is returned, yet both members carry the Protein functional tag:
the `elif` on line 120 of ingredients.py registers a Starch-and-Protein
member under Starch only, so the Protein duplicate goes undetected. -/
theorem C1_counterexample :
    survivingCombos c1Catalog 100 0 100 [] 2 =
      [[tagIngredient (mkIng "chicken rice" 1 1 1 []),
        tagIngredient (mkIng "egg" 1 1 1 [])]] ∧
    FTag.Protein ∈ ftags (tagIngredient (mkIng "chicken rice" 1 1 1 [])) ∧
    FTag.Protein ∈ ftags (tagIngredient (mkIng "egg" 1 1 1 [])) ∧
    find_best_meal c1Catalog 100 0 100 [] 2 = .ok (some [c1Rec]) :=
  ⟨of_decide_eq_true (by with_unfolding_all rfl),
   of_decide_eq_true (by with_unfolding_all rfl),
   of_decide_eq_true (by with_unfolding_all rfl),
   of_decide_eq_true (by with_unfolding_all rfl)⟩

/-- The single record `find_best_meal` returns on `c2Catalog` with
max_cost = 0.999: the exact total cost 0.998 passes the filter but is
reported as `round(0.998, 2) = 1.0`. -/
def c2Rec : MealRecord :=
  { ingredients := [chars "Rice", chars "Egg"], total_cost := 1,
    total_protein_g := 2, total_fat_g := 0, num_ingredients := 2,
    diversity_score := 2 }

/-- C2 counterexample: a returned record whose reported (rounded)
`total_cost` exceeds `max_cost`, because the filter ran on the unrounded
sum 0.998 ≤ 0.999 while the record stores the rounding 1.00. -/
theorem C2_counterexample :
    find_best_meal c2Catalog (Rat.divInt 999 1000) 0 100 [] 2 = .ok (some [c2Rec]) ∧
    ¬(c2Rec.total_cost ≤ Rat.divInt 999 1000) :=
  ⟨of_decide_eq_true (by with_unfolding_all rfl),
   of_decide_eq_true (by with_unfolding_all rfl)⟩

/-- C3 counterexample: on the specification's example catalog the
first-ranked result is the three-ingredient combination
{Rice, Chicken, Tomato} (diversity 3 outranks every pair), not the pair
{Chicken, Tomato} nor {Chicken, Rice}. -/
theorem C3_counterexample :
    c3FirstResult.map MealRecord.num_ingredients = some 3 ∧
    c3FirstResult.map MealRecord.ingredients =
      some [chars "Rice", chars "Chicken", chars "Tomato"] :=
  ⟨of_decide_eq_true (by with_unfolding_all rfl),
   of_decide_eq_true (by with_unfolding_all rfl)⟩

/-- C3 amended: the full output on the example catalog is the five records
of `c3Expected`, led by {Rice, Chicken, Tomato}, and no returned
combination contains both Egg and Chicken. -/
theorem C3_example :
    find_best_meal c3Catalog 1 15 15 [] 3 = .ok (some c3Expected) ∧
    c3Expected.all (fun r =>
      !(r.ingredients.contains (chars "Egg") &&
        r.ingredients.contains (chars "Chicken"))) = true :=
  ⟨of_decide_eq_true (by with_unfolding_all rfl),
   of_decide_eq_true (by with_unfolding_all rfl)⟩

/-- C5 counterexample: on unsatisfiable input `find_best_meal` returns the
Python value `None` (`.ok none`), which is not the empty list. -/
theorem C5_counterexample :
    find_best_meal [] 1 0 1 [] 4 = .ok none ∧
    (Except.ok none : Except Unit (Option (List MealRecord))) ≠ .ok (some []) :=
  ⟨of_decide_eq_true (by with_unfolding_all rfl),
   of_decide_eq_true (by with_unfolding_all rfl)⟩

/-- C10: the safety-filter loop writes `functional_tags` into exactly the
safe records of the caller's list, in place, leaving unsafe records (and
every other field) unchanged. -/
theorem C10_mutation (excluded_tags : List Str) (data : List Ingredient) :
    dataAfterCall excluded_tags data =
      data.map (fun i => if isSafe excluded_tags i then tagIngredient i else i) := by
  induction data with
  | nil => rfl
  | cons i rest ih =>
    unfold dataAfterCall processData
    unfold dataAfterCall at ih
    by_cases h : isSafe excluded_tags i <;> simp [h, ih]

/-- C5 amended: whenever no combination survives every filter (in
particular on the empty catalog), `find_best_meal` raises nothing and
returns the Python value `None` — not an empty list. -/
theorem C5_none (data : List Ingredient) (max_cost min_protein max_fat : ℚ)
    (excluded_tags : List Str) (max_ingredients : ℕ)
    (h : survivingCombos data max_cost min_protein max_fat excluded_tags
      max_ingredients = []) :
    find_best_meal data max_cost min_protein max_fat excluded_tags
      max_ingredients = .ok none := by
  unfold find_best_meal validMeals
  rw [h]
  rfl

/-- Witness for `C5_none` at the empty catalog. -/
theorem C5_none_witness :
    survivingCombos [] 1 0 1 [] 4 = [] ∧
    find_best_meal [] 1 0 1 [] 4 = .ok none :=
  ⟨rfl, C5_none [] 1 0 1 [] 4 rfl⟩

/-- The keyword list the specification requires for the "dairy" tag. -/
def dairyKeywords : List Str :=
  ["milk", "cheese", "butter", "yogurt", "cream", "whey",
   "casein"].map String.toList

lemma check_allergens_dairy (lines : List Str) :
    check_recipe_allergens lines [chars "dairy"] =
      !(lines.any (fun line =>
        dairyKeywords.any (fun kw => isSubstr kw (toLowerStr line)))) := rfl

lemma check_allergens_fallback (tag : Str) (lines : List Str)
    (hnone : lookupKeywords (toLowerStr tag) = none) :
    check_recipe_allergens lines [tag] =
      !(lines.any (fun line => isSubstr (toLowerStr tag) (toLowerStr line))) := by
  unfold check_recipe_allergens
  simp [hnone]

/-- C7: with excluded tag "dairy" the allergen check fails exactly when some
ingredient line contains one of the seven dairy keywords as a
(case-insensitive) substring; a tag whose lower-casing is absent from
`ALLERGY_KEYWORD_MAP` is used, lower-cased, as the sole keyword. -/
theorem C7_allergens :
    (∀ lines : List Str,
      (check_recipe_allergens lines [chars "dairy"] = false ↔
        ∃ line ∈ lines, ∃ kw ∈ dairyKeywords,
          isSubstr kw (toLowerStr line) = true)) ∧
    (∀ tag : Str, ∀ lines : List Str, lookupKeywords (toLowerStr tag) = none →
      (check_recipe_allergens lines [tag] = false ↔
        ∃ line ∈ lines, isSubstr (toLowerStr tag) (toLowerStr line) = true)) := by
  constructor
  · intro lines
    rw [check_allergens_dairy]
    simp [List.any_eq_true]
  · intro tag lines hnone
    rw [check_allergens_fallback tag lines hnone]
    simp [List.any_eq_true]

/-- Witness for `C7_allergens`: "milk tea" is rejected under the "dairy"
tag, and the unmapped tag "sesame" is used verbatim as a keyword. -/
theorem C7_allergens_witness :
    check_recipe_allergens [chars "milk tea"] [chars "dairy"] = false ∧
    check_recipe_allergens [chars "sesame oil"] [chars "sesame"] = false :=
  ⟨(C7_allergens.1 [chars "milk tea"]).mpr
      ⟨chars "milk tea", by decide, chars "milk", by decide, by decide⟩,
   (C7_allergens.2 (chars "sesame") [chars "sesame oil"] (by decide)).mpr
      ⟨chars "sesame oil", by decide, by decide⟩⟩

lemma check_dietary_vegetarian (title : Str) (lines : List Str) :
    check_recipe_dietary title lines (chars "vegetarian") =
      !((meat_poultry_tags ++ fish_shellfish_tags).any (fun tag =>
        isSubstr tag (toLowerStr (List.intercalate (chars " ") lines)) ||
        isSubstr tag (toLowerStr title))) := rfl

lemma check_dietary_pescetarian (title : Str) (lines : List Str) :
    check_recipe_dietary title lines (chars "pescetarian") =
      !(meat_poultry_tags.any (fun tag =>
        isSubstr tag (toLowerStr (List.intercalate (chars " ") lines)) ||
        isSubstr tag (toLowerStr title))) := rfl

/-- C8: containing "chicken" (title or joined ingredient lines) suffices for
the vegetarian check to reject; after replacing "chicken" by "salmon"
everywhere, the pescetarian check accepts provided no meat/poultry keyword
remains; preference "none" always accepts. -/
theorem C8_dietary :
    (∀ title : Str, ∀ lines : List Str,
      (isSubstr (chars "chicken") (toLowerStr title) = true ∨
       isSubstr (chars "chicken")
         (toLowerStr (List.intercalate (chars " ") lines)) = true) →
      check_recipe_dietary title lines (chars "vegetarian") = false) ∧
    (∀ title : Str, ∀ lines : List Str,
      (∀ tag ∈ meat_poultry_tags,
        isSubstr tag (toLowerStr (List.intercalate (chars " ")
          (lines.map (replaceAll (chars "chicken") (chars "salmon"))))) = false ∧
        isSubstr tag
          (toLowerStr (replaceAll (chars "chicken") (chars "salmon") title)) = false) →
      check_recipe_dietary (replaceAll (chars "chicken") (chars "salmon") title)
        (lines.map (replaceAll (chars "chicken") (chars "salmon")))
        (chars "pescetarian") = true) ∧
    (∀ title : Str, ∀ lines : List Str,
      check_recipe_dietary title lines (chars "none") = true) := by
  refine ⟨?_, ?_, ?_⟩
  · intro title lines h
    rw [check_dietary_vegetarian]
    have hany : ((meat_poultry_tags ++ fish_shellfish_tags).any (fun tag =>
        isSubstr tag (toLowerStr (List.intercalate (chars " ") lines)) ||
        isSubstr tag (toLowerStr title))) = true :=
      List.any_eq_true.mpr
        ⟨chars "chicken", by decide, by
          rcases h with h | h
          · rw [h, Bool.or_true]
          · rw [h, Bool.true_or]⟩
    rw [hany]
    rfl
  · intro title lines h
    rw [check_dietary_pescetarian]
    have hany : (meat_poultry_tags.any (fun tag =>
        isSubstr tag (toLowerStr (List.intercalate (chars " ")
          (lines.map (replaceAll (chars "chicken") (chars "salmon"))))) ||
        isSubstr tag
          (toLowerStr (replaceAll (chars "chicken") (chars "salmon") title)))) = false := by
      rw [List.any_eq_false]
      intro tag htag
      simp [(h tag htag).1, (h tag htag).2]
    rw [hany]
    rfl
  · intro title lines
    rfl

/-- Witness for `C8_dietary` on the recipe "Chicken Pie" and its
salmon-for-chicken variant. -/
theorem C8_dietary_witness :
    check_recipe_dietary (chars "Chicken Pie") [chars "1 chicken breast"]
      (chars "vegetarian") = false ∧
    check_recipe_dietary (replaceAll (chars "chicken") (chars "salmon") (chars "chicken soup"))
      ([chars "1 chicken fillet"].map (replaceAll (chars "chicken") (chars "salmon")))
      (chars "pescetarian") = true ∧
    check_recipe_dietary (chars "Chicken Pie") [chars "1 chicken breast"]
      (chars "none") = true :=
  ⟨C8_dietary.1 (chars "Chicken Pie") [chars "1 chicken breast"] (Or.inl (by decide)),
   C8_dietary.2.1 (chars "chicken soup") [chars "1 chicken fillet"] (by decide),
   C8_dietary.2.2 (chars "Chicken Pie") [chars "1 chicken breast"]⟩

lemma comboScan_count {l : List Ingredient} {macros acc fts : Finset FTag}
    (h : comboScan l macros acc = some fts) :
    l.countP (fun i => decide (FTag.Starch ∈ ftags i)) +
      (if FTag.Starch ∈ macros then 1 else 0) ≤ 1 ∧
    l.countP (fun i => decide (FTag.Protein ∈ ftags i ∧ FTag.Starch ∉ ftags i)) +
      (if FTag.Protein ∈ macros then 1 else 0) ≤ 1 := by
  induction l generalizing macros acc with
  | nil =>
    constructor <;> · simp only [List.countP_nil]; split_ifs <;> omega
  | cons i rest ih =>
    unfold comboScan at h
    by_cases hS : FTag.Starch ∈ ftags i
    · rw [if_pos hS] at h
      by_cases hSm : FTag.Starch ∈ macros
      · rw [if_pos hSm] at h; exact absurd h (by simp)
      · rw [if_neg hSm] at h
        obtain ⟨h1, h2⟩ := ih h
        rw [if_pos (Finset.mem_insert_self _ _)] at h1
        simp only [Finset.mem_insert, reduceCtorEq, false_or] at h2
        constructor
        · rw [List.countP_cons_of_pos _ _ (by simpa using hS), if_neg hSm]
          omega
        · rw [List.countP_cons_of_neg _ _ (by simp [hS])]
          exact h2
    · rw [if_neg hS] at h
      by_cases hP : FTag.Protein ∈ ftags i
      · rw [if_pos hP] at h
        by_cases hPm : FTag.Protein ∈ macros
        · rw [if_pos hPm] at h; exact absurd h (by simp)
        · rw [if_neg hPm] at h
          obtain ⟨h1, h2⟩ := ih h
          rw [if_pos (Finset.mem_insert_self _ _)] at h2
          simp only [Finset.mem_insert, reduceCtorEq, false_or] at h1
          constructor
          · rw [List.countP_cons_of_neg _ _ (by simp [hS])]
            exact h1
          · rw [List.countP_cons_of_pos _ _ (by simp [hP, hS]), if_neg hPm]
            omega
      · rw [if_neg hP] at h
        obtain ⟨h1, h2⟩ := ih h
        constructor
        · rw [List.countP_cons_of_neg _ _ (by simp [hS])]
          exact h1
        · rw [List.countP_cons_of_neg _ _ (by simp [hP])]
          exact h2

/-- C1 amended: in every surviving combination at most one member carries
the Starch tag, and at most one member carries Protein without Starch; a
member carrying both Starch and Protein is registered by the duplication
walk under Starch only, so a second, Protein-only member may legitimately
accompany it (the behaviour `C1_counterexample` exhibits). -/
theorem C1_roles (data : List Ingredient) (max_cost min_protein max_fat : ℚ)
    (excluded_tags : List Str) (max_ingredients : ℕ) (combo : List Ingredient)
    (h : combo ∈ survivingCombos data max_cost min_protein max_fat excluded_tags
      max_ingredients) :
    combo.countP (fun i => decide (FTag.Starch ∈ ftags i)) ≤ 1 ∧
    combo.countP (fun i => decide (FTag.Protein ∈ ftags i ∧ FTag.Starch ∉ ftags i)) ≤ 1 := by
  have hOK := (List.mem_filter.mp h).2
  unfold comboOK at hOK
  cases hscan : comboScan combo ∅ ∅ with
  | none => rw [hscan] at hOK; exact absurd hOK (by simp)
  | some fts =>
    obtain ⟨h1, h2⟩ := comboScan_count hscan
    rw [if_neg (Finset.not_mem_empty _)] at h1 h2
    omega

/-- Witness for `C1_roles` on the surviving combination of `c1Catalog`. -/
theorem C1_roles_witness :
    [tagIngredient (mkIng "chicken rice" 1 1 1 []),
     tagIngredient (mkIng "egg" 1 1 1 [])].countP
      (fun i => decide (FTag.Starch ∈ ftags i)) ≤ 1 ∧
    [tagIngredient (mkIng "chicken rice" 1 1 1 []),
     tagIngredient (mkIng "egg" 1 1 1 [])].countP
      (fun i => decide (FTag.Protein ∈ ftags i ∧ FTag.Starch ∉ ftags i)) ≤ 1 :=
  C1_roles c1Catalog 100 0 100 [] 2 _ (of_decide_eq_true (by with_unfolding_all rfl))

lemma roundHalfEven_bounds (q : ℚ) :
    q - 1/2 ≤ (roundHalfEven q : ℚ) ∧ (roundHalfEven q : ℚ) ≤ q + 1/2 := by
  have h1 : ((⌊q⌋ : ℤ) : ℚ) ≤ q := Int.floor_le q
  have h2 : q < ((⌊q⌋ : ℤ) : ℚ) + 1 := Int.lt_floor_add_one q
  unfold roundHalfEven
  dsimp only
  split_ifs with ha hb hc <;> constructor <;> push_cast <;> linarith

lemma pyRound_bounds (d : ℕ) (q : ℚ) :
    q - 1/(2 * 10 ^ d) ≤ pyRound d q ∧ pyRound d q ≤ q + 1/(2 * 10 ^ d) := by
  have hp : (0:ℚ) < 10 ^ d := by positivity
  obtain ⟨hlo, hhi⟩ := roundHalfEven_bounds (q * 10 ^ d)
  unfold pyRound
  constructor
  · rw [le_div_iff hp]
    have : (q - 1/(2 * 10 ^ d)) * 10 ^ d = q * 10 ^ d - 1/2 := by
      field_simp
      ring
    rw [this]
    exact hlo
  · rw [div_le_iff hp]
    have : (q + 1/(2 * 10 ^ d)) * 10 ^ d = q * 10 ^ d + 1/2 := by
      field_simp
      ring
    rw [this]
    exact hhi

lemma exists_of_mem_mapM {α β : Type} (f : α → Option β) :
    ∀ (l : List α) (l' : List β), l.mapM f = some l' →
      ∀ b ∈ l', ∃ a ∈ l, f a = some b := by
  intro l
  induction l with
  | nil =>
    intro l' h b hb
    simp only [List.mapM_nil, Option.pure_def, Option.some.injEq] at h
    subst h
    simp at hb
  | cons a rest ih =>
    intro l' h b hb
    rw [List.mapM_cons] at h
    cases hfa : f a with
    | none => rw [hfa] at h; simp at h
    | some x =>
      rw [hfa] at h
      cases hrest : rest.mapM f with
      | none => rw [hrest] at h; simp at h
      | some xs =>
        rw [hrest] at h
        simp only [Option.pure_def, Option.bind_eq_bind, Option.some_bind,
          Option.some.injEq] at h
        subst h
        rcases List.mem_cons.mp hb with hb | hb
        · exact ⟨a, List.mem_cons_self a rest, hb ▸ hfa⟩
        · obtain ⟨a', ha', hfa'⟩ := ih xs hrest b hb
          exact ⟨a', List.mem_cons_of_mem a ha', hfa'⟩

lemma mkRecord_fields {combo : List Ingredient} {rec : MealRecord}
    (h : mkRecord combo = some rec) :
    rec.total_cost = pyRound 2 (totalCost combo) ∧
    rec.total_protein_g = pyRound 1 (totalProtein combo) ∧
    rec.total_fat_g = pyRound 1 (totalFat combo) ∧
    rec.diversity_score = ((comboScan combo ∅ ∅).getD ∅).card := by
  unfold mkRecord at h
  cases hn : combo.mapM (fun i => clean_ingredient_name i.name) with
  | none => rw [hn] at h; simp at h
  | some names =>
    rw [hn] at h
    simp only [Option.pure_def, Option.bind_eq_bind, Option.some_bind,
      Option.some.injEq] at h
    subst h
    exact ⟨rfl, rfl, rfl, rfl⟩

lemma comboOK_spec {max_cost min_protein max_fat : ℚ} {combo : List Ingredient}
    (h : comboOK max_cost min_protein max_fat combo = true) :
    ∃ fts, comboScan combo ∅ ∅ = some fts ∧ 2 ≤ fts.card ∧
      totalCost combo ≤ max_cost ∧ min_protein ≤ totalProtein combo ∧
      totalFat combo ≤ max_fat := by
  unfold comboOK at h
  cases hscan : comboScan combo ∅ ∅ with
  | none => rw [hscan] at h; exact absurd h (by simp)
  | some fts =>
    rw [hscan] at h
    simp only [Bool.and_eq_true, decide_eq_true_eq] at h
    exact ⟨fts, rfl, h.1.1.1, h.1.1.2, h.1.2, h.2⟩

lemma find_best_meal_ok {data : List Ingredient} {mc mp mf : ℚ} {ex : List Str}
    {mi : ℕ} {l : List MealRecord}
    (h : find_best_meal data mc mp mf ex mi = .ok (some l)) :
    ∃ meals, validMeals data mc mp mf ex mi = some meals ∧
      l = (meals.insertionSort mealKeyLE).take 5 := by
  unfold find_best_meal at h
  cases hv : validMeals data mc mp mf ex mi with
  | none => rw [hv] at h; cases h
  | some vm =>
    rw [hv] at h
    dsimp only at h
    by_cases he : vm.isEmpty
    · rw [if_pos he] at h; simp at h
    · rw [if_neg he] at h
      simp only [Except.ok.injEq, Option.some.injEq] at h
      exact ⟨vm, rfl, h.symm⟩

/-- C2 amended: every returned record has `diversity_score ≥ 2`, and its
reported totals satisfy the constraints up to the rounding half-step (the
filter runs on the exact sums, the record stores the sums rounded to 2
decimals for cost and 1 decimal for protein and fat, so the reported value
can overshoot a bound by at most half an ulp — `C2_counterexample`). -/
theorem C2_bounds (data : List Ingredient) (mc mp mf : ℚ) (ex : List Str)
    (mi : ℕ) (l : List MealRecord)
    (h : find_best_meal data mc mp mf ex mi = .ok (some l)) :
    ∀ rec ∈ l, 2 ≤ rec.diversity_score ∧
      rec.total_cost ≤ mc + 1/200 ∧
      mp - 1/20 ≤ rec.total_protein_g ∧
      rec.total_fat_g ≤ mf + 1/20 := by
  intro rec hrec
  obtain ⟨meals, hv, hl⟩ := find_best_meal_ok h
  subst hl
  have hrec2 : rec ∈ meals :=
    (List.perm_insertionSort mealKeyLE meals).mem_iff.mp (List.mem_of_mem_take hrec)
  unfold validMeals at hv
  obtain ⟨combo, hcm, hmk⟩ := exists_of_mem_mapM _ _ _ hv rec hrec2
  have hOK := (List.mem_filter.mp hcm).2
  obtain ⟨fts, hscan, hcard, hcost, hprot, hfat⟩ := comboOK_spec hOK
  obtain ⟨e1, e2, e3, e4⟩ := mkRecord_fields hmk
  refine ⟨?_, ?_, ?_, ?_⟩
  · rw [e4, hscan]
    simpa using hcard
  · rw [e1]
    have hb := (pyRound_bounds 2 (totalCost combo)).2
    have : (1 : ℚ)/(2 * 10 ^ 2) = 1/200 := by norm_num
    rw [this] at hb
    linarith
  · rw [e2]
    have hb := (pyRound_bounds 1 (totalProtein combo)).1
    have : (1 : ℚ)/(2 * 10 ^ 1) = 1/20 := by norm_num
    rw [this] at hb
    linarith
  · rw [e3]
    have hb := (pyRound_bounds 1 (totalFat combo)).2
    have : (1 : ℚ)/(2 * 10 ^ 1) = 1/20 := by norm_num
    rw [this] at hb
    linarith

/-- Witness for `C2_bounds` on the example catalog's first-ranked record. -/
theorem C2_bounds_witness :
    2 ≤ c3Top.diversity_score ∧ c3Top.total_cost ≤ 1 + 1/200 ∧
    (15 : ℚ) - 1/20 ≤ c3Top.total_protein_g ∧ c3Top.total_fat_g ≤ 15 + 1/20 :=
  C2_bounds c3Catalog 1 15 15 [] 3 c3Expected
    (of_decide_eq_true (by with_unfolding_all rfl)) c3Top
    (List.mem_cons_self c3Top _)

/-- C4: a successfully returned list has at most 5 entries, is sorted by
(diversity desc, protein desc, cost asc), is the 5-element prefix of the
stable sort of `valid_meals`, and the stable sort keeps equal-key records
in their enumeration order. -/
theorem C4_ranking (data : List Ingredient) (mc mp mf : ℚ) (ex : List Str)
    (mi : ℕ) (l : List MealRecord)
    (h : find_best_meal data mc mp mf ex mi = .ok (some l)) :
    l.length ≤ 5 ∧ l.Sorted mealKeyLE ∧
    ∀ meals, validMeals data mc mp mf ex mi = some meals →
      l = (meals.insertionSort mealKeyLE).take 5 ∧
      ∀ a b, List.Sublist [a, b] meals → a.diversity_score = b.diversity_score →
        a.total_protein_g = b.total_protein_g → a.total_cost = b.total_cost →
        List.Sublist [a, b] (meals.insertionSort mealKeyLE) := by
  obtain ⟨meals, hv, hl⟩ := find_best_meal_ok h
  refine ⟨?_, ?_, ?_⟩
  · rw [hl]
    exact List.length_take_le 5 _
  · rw [hl]
    exact List.Pairwise.sublist (List.take_sublist 5 _)
      (List.sorted_insertionSort mealKeyLE meals)
  · intro meals2 hv2
    rw [hv] at hv2
    injection hv2 with hv2
    subst hv2
    refine ⟨hl, ?_⟩
    intro a b hab e1 e2 e3
    exact List.pair_sublist_insertionSort
      (Or.inr ⟨e1, Or.inr ⟨e2, le_of_eq e3⟩⟩) hab

/-- Witness for `C4_ranking` on the example catalog. -/
theorem C4_ranking_witness :
    c3Expected.length ≤ 5 ∧ c3Expected.Sorted mealKeyLE :=
  have h := C4_ranking c3Catalog 1 15 15 [] 3 c3Expected
    (of_decide_eq_true (by with_unfolding_all rfl))
  ⟨h.1, h.2.1⟩

lemma not_mem_pySplit_head (sep : Char) (s : Str) :
    sep ∉ (pySplit sep s).headD [] := by
  induction s with
  | nil => simp [pySplit]
  | cons c rest ih =>
    unfold pySplit
    by_cases h : c = sep
    · simp [h]
    · simp only [if_neg h, List.headD_cons, List.mem_cons]
      rintro (h' | h')
      · exact h h'.symm
      · exact ih h'

lemma mem_of_mem_pyStrip {a : Char} {s : Str} (h : a ∈ pyStrip s) : a ∈ s := by
  unfold pyStrip at h
  have h1 := List.mem_reverse.mp h
  have h2 := (List.dropWhile_sublist _).subset h1
  have h3 := List.mem_reverse.mp h2
  exact (List.dropWhile_sublist _).subset h3

/-- C6 amended: `clean_ingredient_name` strips the noise terms at every
comma- or space-prefixed occurrence — including mid-string, as on
"egg raw mix" — then capitalizes the first character and truncates at the
first comma (so the result never contains a comma); it returns a value
exactly when the whitespace-stripped, noise-stripped input is nonempty. -/
theorem C6_clean :
    clean_ingredient_name (chars "egg raw mix") = some (chars "Egg mix") ∧
    (∀ name r, clean_ingredient_name name = some r → ',' ∉ r) ∧
    (∀ name, clean_ingredient_name name = none ↔
      stripNoise (pyStrip name) = []) := by
  refine ⟨by decide, ?_, ?_⟩
  · intro name r h
    unfold clean_ingredient_name at h
    cases hs : stripNoise (pyStrip name) with
    | nil => rw [hs] at h; cases h
    | cons c rest =>
      rw [hs] at h
      simp only [Option.some.injEq] at h
      subst h
      intro hmem
      have h1 := mem_of_mem_pyStrip hmem
      exact not_mem_pySplit_head ',' _ h1
  · intro name
    unfold clean_ingredient_name
    cases hs : stripNoise (pyStrip name) with
    | nil => simp
    | cons c rest => simp

/-- Witness for `C6_clean`: the cleaned "egg raw mix" contains no comma,
and ", raw" cleans to `none` exactly because its noise-stripped form is
empty. -/
theorem C6_clean_witness :
    (',' ∉ chars "Egg mix") ∧
    (clean_ingredient_name (chars ", raw") = none ↔
      stripNoise (pyStrip (chars ", raw")) = []) :=
  ⟨C6_clean.2.1 (chars "egg raw mix") (chars "Egg mix") (by decide),
   C6_clean.2.2 (chars ", raw")⟩
